import Mathlib

/-!
Verification development for the prompt-assembly core of `prompt-lib`
(`prompt_lib/prompts/utils.py` and its near-duplicate `prompts/utils.py`).

The Python code is shallowly embedded: pure functions become Lean functions,
Python strings become Lean `String` (with the relevant `str` methods modelled
explicitly at the character-list level, since the behaviour of `str.replace`
and `str.strip` matters to the claims), and fallible code returns `Except`.
-/

namespace PromptLib

/-- Model of Python's whitespace test used by `str.strip()` on ASCII text:
space, tab, newline, carriage return, vertical tab and form feed. -/
def pyIsSpace (c : Char) : Bool :=
  c = ' ' || c = '\t' || c = '\n' || c = '\r' || c = '\x0b' || c = '\x0c'

/-- Model of Python's `s.replace("\\n", "\n")` on the character list: scan left
to right, replacing each (non-overlapping) occurrence of the two-character
sequence backslash-`n` by a newline character. -/
def unescapeNlChars : List Char → List Char
  | [] => []
  | '\\' :: 'n' :: rest => '\n' :: unescapeNlChars rest
  | c :: rest => c :: unescapeNlChars rest

/-- Model of Python's `s.replace("\\n", "\n")` on strings. -/
def unescapeNl (s : String) : String := ⟨unescapeNlChars s.data⟩

/-- Model of Python's `s.strip()`: remove leading and trailing whitespace. -/
def pyStrip (s : String) : String :=
  ⟨((s.data.dropWhile pyIsSpace).reverse.dropWhile pyIsSpace).reverse⟩

/-- Right-trim only, following the spec's words ("right-trimmed of trailing
whitespace ... leading whitespace preserved"); kept for comparison with the
source's `str.strip()`, which `pyStrip` models. -/
def pyRstrip (s : String) : String :=
  ⟨(s.data.reverse.dropWhile pyIsSpace).reverse⟩

/-- Decidable prefix test on character lists (model of Python's `str.startswith`,
used only to build the substring test below). -/
def isPrefixOfChars : List Char → List Char → Bool
  | [], _ => true
  | _ :: _, [] => false
  | a :: as, b :: bs => a = b && isPrefixOfChars as bs

/-- Occurrence test for a pattern inside a character list. -/
def hasInfixChars (pat : List Char) : List Char → Bool
  | [] => isPrefixOfChars pat []
  | c :: cs => isPrefixOfChars pat (c :: cs) || hasInfixChars pat cs

/-- Model of Python's `pat in s` substring containment test. -/
def strContains (s pat : String) : Bool := hasInfixChars pat.data s.data

/-!
Model of Python's `random.Random(seed).sample(population, k)`.

`random.Random(seed)` is documented to be a deterministic generator: its draw
sequence is a pure function of the seed. The Mersenne Twister internals are
abstracted to a seeded mixing function; every theorem below depends only on
(1) determinism in the seed and (2) each draw being below its bound — never on
the particular values drawn. `sample` draws `k` elements without replacement,
removing each drawn position from the remaining pool, and raises
`ValueError("Sample larger than population or is negative")` unless
`0 <= k <= len(population)`.
-/

/-- The seeded draw stream (abstraction of the Mersenne Twister state after
`step` draws), reduced into a 64-bit word. -/
def mix (seed : Int) (step : Nat) : Nat :=
  ((seed.natAbs + 0x9E3779B97F4A7C15) * 6364136223846793005 +
      step * 1442695040888963407 + 1013904223) % 2 ^ 64

/-- Model of the generator's `_randbelow(m)`: a value below `m` (for `m > 0`),
deterministic in the seed and the draw index. -/
def randbelow (seed : Int) (step m : Nat) : Nat := mix seed step % m

/-- Sampling without replacement over positions: draw `k` positions, each time
taking index `j` below the current pool size and removing it from the pool. -/
def sampleIdx (seed : Int) : Nat → Nat → List Nat → List Nat
  | 0, _, _ => []
  | k + 1, step, pool =>
    match pool with
    | [] => []
    | p :: ps =>
      let j := randbelow seed step (p :: ps).length
      (p :: ps).getD j 0 :: sampleIdx seed k (step + 1) ((p :: ps).eraseIdx j)

/-- Model of `random.Random(seed).sample(population, k)` (with `k` a Python
`int`, so possibly negative): fails unless `0 <= k <= len(population)`,
otherwise returns the elements at `k` sampled pairwise-distinct positions. -/
def pysample {α : Type} [Inhabited α] (seed : Int) (population : List α) (k : Int) :
    Except String (List α) :=
  if k < 0 || (population.length : Int) < k then
    .error "Sample larger than population or is negative"
  else
    .ok ((sampleIdx seed k.toNat 0 (List.range population.length)).map
      (fun i => population.getD i default))

/-!
Data model of `prompt_lib.prompts.example`. That module is not under `src/`
(only its importers are), so the record shapes are modelled from the spec.
-/

/-- Modelled from the spec: `Example` is one demo record with fields
`question`, `answer`, and `thought` (optional in the source — present for
chain-of-thought formatting; modelled as a string, empty when absent). -/
structure Example where
  question : String
  answer : String
  thought : String := ""
deriving DecidableEq, Inhabited

/-- Modelled from the spec: a prompt pool is either a literal `PromptStr`
(wrapping a pre-built `prompt_str`) or an ordered list of `Example`; the
source dispatches on `isinstance(.., PromptStr)`, modelled as this tagged
union. -/
inductive PromptPool where
  | promptStr (prompt_str : String)
  | examples (es : List Example)
deriving DecidableEq, Inhabited

/-- The `PromptConfig` dataclass: five string fields with these defaults. -/
structure PromptConfig where
  question_prefix : String := "Q: "
  answer_prefix : String := "A: "
  final_answer_prefix : String := "The answer is "
  intra_example_sep : String := "\n"
  inter_example_sep : String := "\n\n"
deriving DecidableEq, Inhabited

/-- The five CLI argument fields read by `PromptConfig.from_args`. -/
structure PromptArgs where
  question_prefix : String
  answer_prefix : String
  final_answer_prefix : String
  intra_example_sep : String
  inter_example_sep : String
deriving DecidableEq

/-- `PromptConfig.from_args`: each field is the raw argument with every
escaped-newline literal replaced by a newline (`.replace("\\n", "\n")`). -/
def PromptConfig.from_args (args : PromptArgs) : PromptConfig :=
  { question_prefix := unescapeNl args.question_prefix
    answer_prefix := unescapeNl args.answer_prefix
    final_answer_prefix := unescapeNl args.final_answer_prefix
    intra_example_sep := unescapeNl args.intra_example_sep
    inter_example_sep := unescapeNl args.inter_example_sep }

/-- A `config_dict` for `PromptConfig.from_dict`: each of the five keys may be
present or absent (`PromptConfig(**config_dict)` falls back to the dataclass
defaults for absent keys). -/
structure PromptConfigDict where
  question_prefix : Option String := none
  answer_prefix : Option String := none
  final_answer_prefix : Option String := none
  intra_example_sep : Option String := none
  inter_example_sep : Option String := none

/-- `PromptConfig.from_dict`: `PromptConfig(**config_dict)` — present keys are
stored exactly as given (no unescaping), absent keys take the defaults. -/
def PromptConfig.from_dict (d : PromptConfigDict) : PromptConfig :=
  { question_prefix := d.question_prefix.getD "Q: "
    answer_prefix := d.answer_prefix.getD "A: "
    final_answer_prefix := d.final_answer_prefix.getD "The answer is "
    intra_example_sep := d.intra_example_sep.getD "\n"
    inter_example_sep := d.inter_example_sep.getD "\n\n" }

/-- The body of `make_prompt`'s `for example in examples` loop, verbatim: the
three `prompt_str +=` statements applied to the accumulator for one drawn
example. -/
def makePromptStep (prompt_config : PromptConfig) (is_cot_prompt : Bool)
    (prompt_str : String) (ex : Example) : String :=
  let s1 := prompt_str ++
    (prompt_config.question_prefix ++ ex.question ++ prompt_config.intra_example_sep)
  let s2 :=
    if is_cot_prompt then
      s1 ++ (prompt_config.answer_prefix ++ ex.thought ++ " ") ++
        (prompt_config.final_answer_prefix ++ ex.answer ++
          prompt_config.intra_example_sep)
    else
      s1 ++ (prompt_config.answer_prefix ++ prompt_config.final_answer_prefix ++
        ex.answer ++ prompt_config.intra_example_sep)
  s2 ++ prompt_config.inter_example_sep

/-- `make_prompt` (identically `format_prompt` in the duplicate copy): literal
passthrough for a `PromptStr` pool; otherwise `num_prompt_examples == -1`
means the whole pool, the examples are drawn by the seeded sampler, and each
drawn example is appended to the accumulating prompt string by the loop body
`makePromptStep`. -/
def make_prompt (prompt_examples : PromptPool) (prompt_config : PromptConfig)
    (num_prompt_examples : Int) (seed : Int) (is_cot_prompt : Bool) :
    Except String String :=
  match prompt_examples with
  | .promptStr s => .ok s
  | .examples pool =>
    let k : Int := if num_prompt_examples = -1 then (pool.length : Int) else num_prompt_examples
    match pysample seed pool k with
    | .error e => .error e
    | .ok examples =>
      .ok (examples.foldl (makePromptStep prompt_config is_cot_prompt) "")

/-- The `TaskConfig` dataclass fields that the verified operations read, as
plain data. `temperature` (a float) and `eval_function` (a dynamic name-to-
callable lookup performed in `__post_init__`) are pass-through configuration
never read by `make_prompt` or `make_task_file_from_config` and are omitted. -/
structure TaskConfig where
  task_id : String
  tag : String
  num_prompt_examples : Int
  max_tokens : Int
  seed : Int
  num_questions_per_thread : Int
  is_cot_task : Bool
  model_name : String
  cached_timestamp : String
  max_requests_per_min : Int
  prompt_config : PromptConfig

/-- One record of the task file: the source requires `input` and `target`
string fields on every line. -/
structure TaskRow where
  input : String
  target : String
deriving DecidableEq, Inhabited

/-- One row of the resulting table: exactly the two columns `question` and
`answer` that `make_task_file_from_config` returns. -/
structure TaskFileRow where
  question : String
  answer : String
deriving DecidableEq, Inhabited

/-- The `prompt_str` computation of `make_task_file_from_config`: literal
passthrough when the registry entry for the task id is a `PromptStr`,
otherwise `make_prompt` on the registry's example list. The registry lookup
`task_id_to_prompt[task_config.task_id]` is passed in as `registry_entry`. -/
def resolve_prompt_str (task_config : TaskConfig) (registry_entry : PromptPool) :
    Except String String :=
  match registry_entry with
  | .promptStr s => .ok s
  | .examples es =>
    make_prompt (.examples es) task_config.prompt_config
      task_config.num_prompt_examples task_config.seed task_config.is_cot_task

/-- `make_task_file_from_config`, with the two external inputs passed in
explicitly: `registry_entry` is `task_id_to_prompt[task_config.task_id]` and
`rows` the parsed lines of the task file (file loading is I/O glue outside
this embedding). For each row, `question` is the shared prompt followed by
`question_prefix`, the row's `input`, `intra_example_sep` and the answer
prefix — `str.strip()`ped when the model name does not contain `"code"` —
and `answer` is the row's `target` unchanged. -/
def make_task_file_from_config (task_config : TaskConfig)
    (registry_entry : PromptPool) (rows : List TaskRow) :
    Except String (List TaskFileRow) :=
  match resolve_prompt_str task_config registry_entry with
  | .error e => .error e
  | .ok prompt_str =>
    let is_non_code_model := !(strContains task_config.model_name "code")
    .ok (rows.map fun row =>
      { question := prompt_str ++ task_config.prompt_config.question_prefix ++
          row.input ++ task_config.prompt_config.intra_example_sep ++
          (if is_non_code_model then pyStrip task_config.prompt_config.answer_prefix
           else task_config.prompt_config.answer_prefix),
        answer := row.target })

/-!
Spec-side definitions, for the refinement claims only: these follow the
spec's words (section 4.1 of the spec) rather than the source, and are
compared with `make_prompt` in the theorems below.
-/

/-- The per-example block exactly as the spec describes it: question line,
then the chain-of-thought or plain answer line, then the trailing
inter-example separator. -/
def specExampleBlock (c : PromptConfig) (useChainOfThought : Bool) (e : Example) : String :=
  c.question_prefix ++ e.question ++ c.intra_example_sep ++
    (if useChainOfThought then
      c.answer_prefix ++ e.thought ++ " " ++ c.final_answer_prefix ++ e.answer ++
        c.intra_example_sep
    else
      c.answer_prefix ++ c.final_answer_prefix ++ e.answer ++ c.intra_example_sep) ++
    c.inter_example_sep

/-- The spec's assembled output over the selected examples, in sampled order:
the concatenation of the per-example blocks. -/
def specPromptOfExamples (c : PromptConfig) (useChainOfThought : Bool) :
    List Example → String
  | [] => ""
  | e :: es => specExampleBlock c useChainOfThought e ++ specPromptOfExamples c useChainOfThought es

deriving instance DecidableEq for Except

/-! Helper lemmas about the sampling model. -/

theorem randbelow_lt (seed : Int) (step m : Nat) (hm : 0 < m) :
    randbelow seed step m < m :=
  Nat.mod_lt _ hm

theorem cons_eraseIdx_perm (l : List Nat) (j : Nat) (h : j < l.length) :
    List.Perm (l.getD j 0 :: l.eraseIdx j) l := by
  rw [List.getD_eq_getElem l 0 h]
  exact ((List.perm_cons_erase (List.getElem_mem h)).trans
    ((List.erase_getElem h).cons _)).symm

theorem sampleIdx_length (seed : Int) :
    ∀ (k step : Nat) (pool : List Nat), k ≤ pool.length →
      (sampleIdx seed k step pool).length = k := by
  intro k
  induction k with
  | zero => intro step pool _; rfl
  | succ k ih =>
    intro step pool hk
    match pool with
    | [] => simp at hk
    | p :: ps =>
      have hlen : 0 < (p :: ps).length := by simp
      have hj := randbelow_lt seed step _ hlen
      have herase : ((p :: ps).eraseIdx (randbelow seed step (p :: ps).length)).length
          = ps.length := by
        rw [List.length_eraseIdx]
        simp only [hj, if_pos]
        simp
      show ((p :: ps).getD _ 0 :: sampleIdx seed k (step + 1) _).length = k + 1
      rw [List.length_cons, ih (step + 1) _ (by rw [herase]; simpa using hk)]

theorem sampleIdx_subset (seed : Int) :
    ∀ (k step : Nat) (pool : List Nat), ∀ x ∈ sampleIdx seed k step pool, x ∈ pool := by
  intro k
  induction k with
  | zero => intro step pool x hx; simp [sampleIdx] at hx
  | succ k ih =>
    intro step pool x hx
    match pool with
    | [] => simp [sampleIdx] at hx
    | p :: ps =>
      have hlen : 0 < (p :: ps).length := by simp
      have hj := randbelow_lt seed step _ hlen
      rw [show sampleIdx seed (k+1) step (p :: ps) =
        (p :: ps).getD (randbelow seed step (p :: ps).length) 0 ::
          sampleIdx seed k (step + 1)
            ((p :: ps).eraseIdx (randbelow seed step (p :: ps).length)) from rfl] at hx
      rcases List.mem_cons.mp hx with h | h
      · rw [h, List.getD_eq_getElem _ 0 hj]
        exact List.getElem_mem hj
      · exact List.eraseIdx_subset _ _ (ih _ _ x h)

theorem sampleIdx_nodup (seed : Int) :
    ∀ (k step : Nat) (pool : List Nat), pool.Nodup →
      (sampleIdx seed k step pool).Nodup := by
  intro k
  induction k with
  | zero => intro step pool _; simp [sampleIdx]
  | succ k ih =>
    intro step pool hpool
    match pool with
    | [] => simp [sampleIdx]
    | p :: ps =>
      have hlen : 0 < (p :: ps).length := by simp
      have hj := randbelow_lt seed step _ hlen
      rw [show sampleIdx seed (k+1) step (p :: ps) =
        (p :: ps).getD (randbelow seed step (p :: ps).length) 0 ::
          sampleIdx seed k (step + 1)
            ((p :: ps).eraseIdx (randbelow seed step (p :: ps).length)) from rfl]
      have hperm := cons_eraseIdx_perm (p :: ps) _ hj
      have hcons : ((p :: ps).getD (randbelow seed step (p :: ps).length) 0 ::
          (p :: ps).eraseIdx (randbelow seed step (p :: ps).length)).Nodup :=
        hperm.symm.nodup hpool
      rw [List.nodup_cons] at hcons ⊢
      exact ⟨fun hmem => hcons.1 (sampleIdx_subset seed k (step + 1) _ _ hmem),
        ih _ _ hcons.2⟩

theorem sampleIdx_perm (seed : Int) :
    ∀ (k step : Nat) (pool : List Nat), pool.length = k →
      List.Perm (sampleIdx seed k step pool) pool := by
  intro k
  induction k with
  | zero =>
    intro step pool hlen
    rw [List.length_eq_zero.mp hlen]
    exact List.Perm.refl _
  | succ k ih =>
    intro step pool hlen
    match pool with
    | [] => simp at hlen
    | p :: ps =>
      have hpos : 0 < (p :: ps).length := by simp
      have hj := randbelow_lt seed step _ hpos
      have herase : ((p :: ps).eraseIdx (randbelow seed step (p :: ps).length)).length = k := by
        rw [List.length_eraseIdx]
        simp only [hj, if_pos]
        omega
      rw [show sampleIdx seed (k+1) step (p :: ps) =
        (p :: ps).getD (randbelow seed step (p :: ps).length) 0 ::
          sampleIdx seed k (step + 1)
            ((p :: ps).eraseIdx (randbelow seed step (p :: ps).length)) from rfl]
      exact ((ih _ _ herase).cons _).trans (cons_eraseIdx_perm _ _ hj)

theorem range_map_getD {α : Type} [Inhabited α] (pool : List α) :
    (List.range pool.length).map (fun i => pool.getD i default) = pool := by
  apply List.ext_getElem
  · simp
  · intro i h1 h2
    simp only [List.getElem_map, List.getElem_range]
    exact List.getD_eq_getElem pool default h2

theorem pysample_ok {α : Type} [Inhabited α] (seed : Int) (population : List α)
    (k : Int) (h0 : 0 ≤ k) (hk : k ≤ (population.length : Int)) :
    pysample seed population k =
      .ok ((sampleIdx seed k.toNat 0 (List.range population.length)).map
        (fun i => population.getD i default)) := by
  unfold pysample
  rw [if_neg]
  simp only [Bool.or_eq_true, decide_eq_true_eq, not_or, not_lt]
  exact ⟨h0, hk⟩

theorem pysample_err {α : Type} [Inhabited α] (seed : Int) (population : List α)
    (k : Int) (hk : (population.length : Int) < k) :
    pysample seed population k = .error "Sample larger than population or is negative" := by
  unfold pysample
  rw [if_pos]
  simp only [Bool.or_eq_true, decide_eq_true_eq]
  exact Or.inr hk

/-! Helper lemmas about the escape-sequence unescaping model. -/

theorem unescape_cons_ne (c : Char) (rest : List Char) (hc : c ≠ '\\') :
    unescapeNlChars (c :: rest) = c :: unescapeNlChars rest := by
  conv_lhs => unfold unescapeNlChars
  split
  · next heq => exact List.noConfusion heq
  · next heq =>
      injection heq with h1 h2
      exact absurd h1 hc
  · next heq =>
      injection heq with h1 h2
      subst h1
      subst h2
      rfl

theorem unescape_cons_eq (c : Char) (rest : List Char)
    (hne : ∀ r : List Char, c = '\\' → rest = 'n' :: r → False) :
    unescapeNlChars (c :: rest) = c :: unescapeNlChars rest := by
  conv_lhs => unfold unescapeNlChars
  split
  · next heq => exact List.noConfusion heq
  · next heq =>
      injection heq with h1 h2
      exact (hne _ h1 h2).elim
  · next heq =>
      injection heq with h1 h2
      subst h1
      subst h2
      rfl

theorem unescape_eq_self_of_no_backslash (u : List Char) (hu : '\\' ∉ u) :
    unescapeNlChars u = u := by
  induction u with
  | nil => rfl
  | cons c cs ih =>
    rw [unescape_cons_ne c cs (fun hcc => hu (hcc ▸ List.mem_cons_self c cs))]
    rw [ih (fun hmem => hu (List.mem_cons_of_mem c hmem))]

theorem unescape_append_pattern (u v : List Char) (hu : '\\' ∉ u) :
    unescapeNlChars (u ++ '\\' :: 'n' :: v) = u ++ '\n' :: unescapeNlChars v := by
  induction u with
  | nil => rfl
  | cons c cs ih =>
    have hc : c ≠ '\\' := fun hcc => hu (hcc ▸ List.mem_cons_self c cs)
    rw [List.cons_append, unescape_cons_ne c _ hc,
      ih (fun hmem => hu (List.mem_cons_of_mem c hmem))]
    rfl

theorem unescape_length_le (l : List Char) :
    (unescapeNlChars l).length ≤ l.length := by
  induction l using unescapeNlChars.induct with
  | case1 => simp [unescapeNlChars]
  | case2 rest ih => simp only [unescapeNlChars, List.length_cons]; omega
  | case3 c rest hne ih =>
    rw [unescape_cons_eq c rest hne]
    simp only [List.length_cons]
    omega

theorem unescape_length_lt_of_infix (l : List Char) (h : ['\\', 'n'] <:+: l) :
    (unescapeNlChars l).length < l.length := by
  induction l using unescapeNlChars.induct with
  | case1 => simp at h
  | case2 rest ih =>
    have := unescape_length_le rest
    simp only [unescapeNlChars, List.length_cons]
    omega
  | case3 c rest hne ih =>
    rw [unescape_cons_eq c rest hne]
    simp only [List.length_cons]
    rcases List.infix_cons_iff.mp h with hpre | hinf
    · rcases List.cons_prefix_cons.mp hpre with ⟨hc, htail⟩
      subst hc
      rcases htail with ⟨t, ht⟩
      exact (hne t rfl ht.symm).elim
    · exact Nat.succ_lt_succ (ih hinf)

theorem unescape_head_ne (rest : List Char) (h : rest.head? ≠ some 'n') :
    (unescapeNlChars rest).head? ≠ some 'n' := by
  induction rest using unescapeNlChars.induct with
  | case1 => simp [unescapeNlChars]
  | case2 r ih => simp [unescapeNlChars]
  | case3 c r hne ih =>
    rw [unescape_cons_eq c r hne]
    simpa using fun hc => h (by simp [hc])

theorem no_pattern_in_unescape (l : List Char) :
    ¬ (['\\', 'n'] <:+: unescapeNlChars l) := by
  induction l using unescapeNlChars.induct with
  | case1 => simp [unescapeNlChars]
  | case2 rest ih =>
    intro h
    simp only [unescapeNlChars] at h
    rcases List.infix_cons_iff.mp h with hpre | hinf
    · rcases List.cons_prefix_cons.mp hpre with ⟨hc, _⟩
      exact absurd hc (by decide)
    · exact ih hinf
  | case3 c rest hne ih =>
    intro h
    rw [unescape_cons_eq c rest hne] at h
    rcases List.infix_cons_iff.mp h with hpre | hinf
    · rcases List.cons_prefix_cons.mp hpre with ⟨hc, htail⟩
      subst hc
      have hhd : rest.head? ≠ some 'n' := by
        intro hh
        cases rest with
        | nil => simp at hh
        | cons a r =>
          simp only [List.head?_cons, Option.some_inj] at hh
          exact hne r rfl (by rw [hh])
      rcases htail with ⟨t, ht⟩
      exact unescape_head_ne rest hhd (by rw [← ht]; simp)
    · exact ih hinf

theorem newline_mem_unescape_of_infix (l : List Char) (h : ['\\', 'n'] <:+: l) :
    '\n' ∈ unescapeNlChars l := by
  induction l using unescapeNlChars.induct with
  | case1 => simp at h
  | case2 rest ih => simp [unescapeNlChars]
  | case3 c rest hne ih =>
    rw [unescape_cons_eq c rest hne]
    rcases List.infix_cons_iff.mp h with hpre | hinf
    · rcases List.cons_prefix_cons.mp hpre with ⟨hc, htail⟩
      subst hc
      rcases htail with ⟨t, ht⟩
      exact (hne t rfl ht.symm).elim
    · exact List.mem_cons_of_mem c (ih hinf)

/-! Helper lemmas relating `make_prompt` to the spec-side description. -/

theorem makePromptStep_eq_block (c : PromptConfig) (cot : Bool)
    (acc : String) (e : Example) :
    makePromptStep c cot acc e = acc ++ specExampleBlock c cot e := by
  unfold makePromptStep specExampleBlock
  cases cot <;> simp [String.append_assoc]

theorem foldl_spec_blocks (c : PromptConfig) (cot : Bool) :
    ∀ (l : List Example) (acc : String),
      l.foldl (makePromptStep c cot) acc = acc ++ specPromptOfExamples c cot l := by
  intro l
  induction l with
  | nil =>
    intro acc
    simp [specPromptOfExamples]
  | cons e es ih =>
    intro acc
    rw [List.foldl_cons, ih, makePromptStep_eq_block]
    simp only [specPromptOfExamples]
    rw [String.append_assoc]

theorem make_prompt_examples_eq (pool : List Example) (c : PromptConfig)
    (n seed : Int) (cot : Bool) (sel : List Example)
    (h : pysample seed pool (if n = -1 then (pool.length : Int) else n) = .ok sel) :
    make_prompt (.examples pool) c n seed cot = .ok (specPromptOfExamples c cot sel) := by
  have hred : make_prompt (.examples pool) c n seed cot =
      (match pysample seed pool (if n = -1 then (pool.length : Int) else n) with
        | Except.error e => Except.error e
        | Except.ok examples =>
          Except.ok (examples.foldl (makePromptStep c cot) "")) := rfl
  rw [hred, h]
  show Except.ok (sel.foldl (makePromptStep c cot) "") =
    Except.ok (specPromptOfExamples c cot sel)
  rw [foldl_spec_blocks c cot sel ""]
  simp

theorem make_prompt_examples_err (pool : List Example) (c : PromptConfig)
    (n seed : Int) (cot : Bool) (msg : String)
    (h : pysample seed pool (if n = -1 then (pool.length : Int) else n) = .error msg) :
    make_prompt (.examples pool) c n seed cot = .error msg := by
  have hred : make_prompt (.examples pool) c n seed cot =
      (match pysample seed pool (if n = -1 then (pool.length : Int) else n) with
        | Except.error e => Except.error e
        | Except.ok examples =>
          Except.ok (examples.foldl (makePromptStep c cot) "")) := rfl
  rw [hred, h]

theorem inter_sep_suffix (c : PromptConfig) (cot : Bool) :
    ∀ (sel : List Example), sel ≠ [] →
      c.inter_example_sep.data <:+ (specPromptOfExamples c cot sel).data := by
  intro sel
  induction sel with
  | nil => intro h; exact absurd rfl h
  | cons e es ih =>
    intro _
    by_cases hes : es = []
    · subst hes
      simp only [specPromptOfExamples, specExampleBlock, String.append_empty,
        String.data_append]
      exact List.suffix_append _ _
    · have hsuf := ih hes
      simp only [specPromptOfExamples, String.data_append]
      exact hsuf.trans (List.suffix_append _ _)

theorem pysample_singleton {α : Type} [Inhabited α] (seed : Int) (x : α) :
    pysample seed [x] 1 = .ok [x] := by
  unfold pysample
  rw [if_neg (by simp)]
  show Except.ok ((sampleIdx seed 1 0 [0]).map _) = _
  have h1 : sampleIdx seed 1 0 [0] = [0] := by
    show [0].getD (randbelow seed 0 1) 0 ::
      sampleIdx seed 0 1 ([0].eraseIdx (randbelow seed 0 1)) = [0]
    rw [show randbelow seed 0 1 = 0 from Nat.mod_one _]
    rfl
  rw [h1]
  rfl

theorem make_prompt_single_cot (a : PromptArgs) (e : Example) (seed : Int) :
    make_prompt (.examples [e]) (PromptConfig.from_args a) 1 seed true =
      .ok (specPromptOfExamples (PromptConfig.from_args a) true [e]) := by
  apply make_prompt_examples_eq
  rw [if_neg (by decide)]
  exact pysample_singleton seed e

/-! The claims. -/

/-- C1: `make_prompt` is deterministic — two calls with identical pool,
configuration, count, seed and chain-of-thought flag return the identical
string, and the seeded sampling returns the identical ordered selection on
both calls (in this embedding the seeded generator is a pure function of the
seed, which is exactly what `random.Random(seed)` guarantees). -/
theorem make_prompt_deterministic
    (p₁ p₂ : PromptPool) (c₁ c₂ : PromptConfig) (n₁ n₂ seed₁ seed₂ : Int) (b₁ b₂ : Bool)
    (hp : p₁ = p₂) (hc : c₁ = c₂) (hn : n₁ = n₂) (hs : seed₁ = seed₂) (hb : b₁ = b₂) :
    make_prompt p₁ c₁ n₁ seed₁ b₁ = make_prompt p₂ c₂ n₂ seed₂ b₂ ∧
    ∀ (pool₁ pool₂ : List Example) (k₁ k₂ : Int), pool₁ = pool₂ → k₁ = k₂ →
      pysample seed₁ pool₁ k₁ = pysample seed₂ pool₂ k₂ := by
  subst hp
  subst hc
  subst hn
  subst hs
  subst hb
  exact ⟨rfl, fun pool₁ pool₂ k₁ k₂ hpool hk => by rw [hpool, hk]⟩

theorem make_prompt_deterministic_witness :
    make_prompt (.examples [{ question := "q", answer := "a" }]) {} 1 7 true =
      make_prompt (.examples [{ question := "q", answer := "a" }]) {} 1 7 true ∧
    ∀ (pool₁ pool₂ : List Example) (k₁ k₂ : Int), pool₁ = pool₂ → k₁ = k₂ →
      pysample 7 pool₁ k₁ = pysample 7 pool₂ k₂ :=
  make_prompt_deterministic _ _ _ _ _ _ _ _ _ _ rfl rfl rfl rfl rfl

/-- C2: for a list pool, the output is the concatenation, over the sampled
selection in sampled order, of question line, chain-of-thought or plain
answer line, and the trailing inter-example separator (per-example shape as
the spec words it, `specExampleBlock`); the separator follows every example
including the last, so the output ends with `inter_example_sep` whenever the
selection is non-empty. -/
theorem make_prompt_blocks_and_trailing_sep (pool : List Example) (c : PromptConfig)
    (n seed : Int) (cot : Bool) (sel : List Example)
    (h : pysample seed pool (if n = -1 then (pool.length : Int) else n) = .ok sel) :
    make_prompt (.examples pool) c n seed cot = .ok (specPromptOfExamples c cot sel) ∧
    (sel ≠ [] → c.inter_example_sep.data <:+ (specPromptOfExamples c cot sel).data) :=
  ⟨make_prompt_examples_eq pool c n seed cot sel h, inter_sep_suffix c cot sel⟩

theorem make_prompt_blocks_and_trailing_sep_witness :
    make_prompt (.examples [{ question := "2+2?", answer := "4", thought := "add" }])
        {} 1 0 true =
      .ok (specPromptOfExamples {} true
        [{ question := "2+2?", answer := "4", thought := "add" }]) ∧
    ([{ question := "2+2?", answer := "4", thought := "add" }] ≠ ([] : List Example) →
      (({} : PromptConfig)).inter_example_sep.data <:+
        (specPromptOfExamples {} true
          [{ question := "2+2?", answer := "4", thought := "add" }]).data) :=
  make_prompt_blocks_and_trailing_sep _ _ _ _ _ _ (by decide)

/-- C3 counterexample: on the spec's literal scenario — one example
`(question "2+2?", answer "4", thought "add")`, default configuration,
count 1, seed 0, chain-of-thought — `make_prompt` does NOT return the
spec's claimed string, which ends in only two newlines. -/
theorem literal_scenario_counterexample :
    make_prompt (.examples [{ question := "2+2?", answer := "4", thought := "add" }])
      {} 1 0 true ≠ .ok "Q: 2+2?\nA: add The answer is 4\n\n" := by decide

/-- C3 amended: the literal scenario returns the claimed text with THREE
trailing newlines — the answer line ends with the `intra_example_sep`
newline and is then followed by the two-newline `inter_example_sep`. -/
theorem literal_scenario_actual_output :
    make_prompt (.examples [{ question := "2+2?", answer := "4", thought := "add" }])
      {} 1 0 true = .ok "Q: 2+2?\nA: add The answer is 4\n\n\n" := by decide

/-- C4: with `num_prompt_examples = -1` the whole pool is selected, each
example exactly once — the sampled selection is a permutation of the pool —
and `make_prompt` formats exactly that selection. -/
theorem count_neg_one_selects_all (pool : List Example) (c : PromptConfig) (seed : Int)
    (cot : Bool) (hne : pool ≠ []) :
    ∃ sel : List Example, pysample seed pool (pool.length : Int) = .ok sel ∧
      List.Perm sel pool ∧
      make_prompt (.examples pool) c (-1) seed cot = .ok (specPromptOfExamples c cot sel) := by
  have htoNat : ((pool.length : Int)).toNat = pool.length := Int.toNat_natCast _
  have hok := pysample_ok seed pool (pool.length : Int) (by positivity) le_rfl
  rw [htoNat] at hok
  refine ⟨_, hok, ?_, ?_⟩
  · have hidx : List.Perm (sampleIdx seed pool.length 0 (List.range pool.length))
        (List.range pool.length) :=
      sampleIdx_perm seed pool.length 0 (List.range pool.length) (List.length_range _)
    have hmap := hidx.map (fun i => pool.getD i default)
    rw [range_map_getD] at hmap
    exact hmap
  · apply make_prompt_examples_eq
    rw [if_pos rfl]
    exact hok

theorem count_neg_one_selects_all_witness :
    ∃ sel : List Example,
      pysample 5 [{ question := "q1", answer := "a1" },
        { question := "q2", answer := "a2" }] (([{ question := "q1", answer := "a1" },
        { question := "q2", answer := "a2" }] : List Example).length : Int) = .ok sel ∧
      List.Perm sel [{ question := "q1", answer := "a1" },
        { question := "q2", answer := "a2" }] ∧
      make_prompt (.examples [{ question := "q1", answer := "a1" },
          { question := "q2", answer := "a2" }]) {} (-1) 5 false =
        .ok (specPromptOfExamples {} false sel) :=
  count_neg_one_selects_all _ {} 5 false (by decide)

/-- C5: a count strictly greater than the pool size makes `make_prompt` fail
with the sampler's error (`ValueError("Sample larger than population or is
negative")`, the spec's `InsufficientExamples`) rather than truncating, and
every successful sample is drawn at pairwise-distinct positions of the pool
(sampling without replacement). -/
theorem oversized_count_errors_and_sampling_distinct (pool : List Example)
    (c : PromptConfig) (seed k : Int) (cot : Bool) :
    ((pool.length : Int) < k →
      make_prompt (.examples pool) c k seed cot =
        .error "Sample larger than population or is negative") ∧
    (∀ sel : List Example, pysample seed pool k = .ok sel →
      ∃ idxs : List Nat, idxs.Nodup ∧ (∀ i ∈ idxs, i < pool.length) ∧
        sel = idxs.map (fun i => pool.getD i default)) := by
  constructor
  · intro hk
    apply make_prompt_examples_err
    rw [if_neg (by omega)]
    exact pysample_err seed pool k hk
  · intro sel hsel
    unfold pysample at hsel
    split at hsel
    · exact absurd hsel (by simp)
    · refine ⟨sampleIdx seed k.toNat 0 (List.range pool.length), ?_, ?_, ?_⟩
      · exact sampleIdx_nodup seed _ _ _ (List.nodup_range _)
      · intro i hi
        exact List.mem_range.mp (sampleIdx_subset seed _ _ _ i hi)
      · exact (Except.ok.inj hsel).symm

/-- C6: a `PromptStr` pool is passed through unchanged, and the result does
not depend on the configuration, count, seed or chain-of-thought flag. -/
theorem promptstr_passthrough (s : String) (c c' : PromptConfig)
    (n n' seed seed' : Int) (cot cot' : Bool) :
    make_prompt (.promptStr s) c n seed cot = .ok s ∧
    make_prompt (.promptStr s) c n seed cot = make_prompt (.promptStr s) c' n' seed' cot' :=
  ⟨rfl, rfl⟩

/-- C7 counterexample: with answer prefix `" A: "` (leading and trailing
whitespace) and the non-code model `"davinci"`, the built question ends in
`"A:"` — `str.strip()` removed the LEADING space too — which differs from the
claim's right-trim-only prediction `pyRstrip " A: " = " A:"`. -/
theorem answer_prefix_strip_counterexample :
    make_task_file_from_config
        { task_id := "t", tag := "", num_prompt_examples := 1, max_tokens := 100,
          seed := 0, num_questions_per_thread := 1, is_cot_task := true,
          model_name := "davinci", cached_timestamp := "", max_requests_per_min := 60,
          prompt_config := { answer_prefix := " A: " } }
        (.promptStr "") [{ input := "x", target := "y" }] =
      .ok [{ question := "Q: x\nA:", answer := "y" }] ∧
    "Q: x\nA:" ≠ "" ++ "Q: " ++ "x" ++ "\n" ++ pyRstrip " A: " := by
  constructor
  · decide
  · decide

/-- C7 amended: the answer-prefix segment is the answer prefix stripped of
BOTH leading and trailing whitespace (`str.strip()`) when the model name
does not contain `"code"`, and the answer prefix unchanged when it does. -/
theorem answer_prefix_strip_amended (tc : TaskConfig) (reg : PromptPool)
    (rows : List TaskRow) (out : List TaskFileRow)
    (h : make_task_file_from_config tc reg rows = .ok out)
    (r : TaskFileRow) (hr : r ∈ out) :
    ∃ prompt_str row, resolve_prompt_str tc reg = .ok prompt_str ∧ row ∈ rows ∧
      r.question = prompt_str ++ tc.prompt_config.question_prefix ++ row.input ++
        tc.prompt_config.intra_example_sep ++
        (if strContains tc.model_name "code" then tc.prompt_config.answer_prefix
         else pyStrip tc.prompt_config.answer_prefix) := by
  unfold make_task_file_from_config at h
  split at h
  · exact absurd h (by simp)
  · next prompt_str heq =>
    rw [Except.ok.injEq] at h
    subst h
    rcases List.mem_map.mp hr with ⟨row, hrow, hmap⟩
    refine ⟨prompt_str, row, heq, hrow, ?_⟩
    rw [← hmap]
    cases hcode : strContains tc.model_name "code" <;> simp [hcode]

theorem answer_prefix_strip_witness :
    ∃ prompt_str row,
      resolve_prompt_str
          { task_id := "t", tag := "", num_prompt_examples := 1, max_tokens := 100,
            seed := 0, num_questions_per_thread := 1, is_cot_task := true,
            model_name := "code-cushman", cached_timestamp := "", max_requests_per_min := 60,
            prompt_config := { answer_prefix := " A: " } }
          (.promptStr "PRE") = .ok prompt_str ∧
      row ∈ ([{ input := "x", target := "y" }] : List TaskRow) ∧
      ({ question := "PREQ: x\n A: ", answer := "y" } : TaskFileRow).question =
        prompt_str ++ "Q: " ++ row.input ++ "\n" ++
        (if strContains "code-cushman" "code" then " A: " else pyStrip " A: ") :=
  answer_prefix_strip_amended
    { task_id := "t", tag := "", num_prompt_examples := 1, max_tokens := 100,
      seed := 0, num_questions_per_thread := 1, is_cot_task := true,
      model_name := "code-cushman", cached_timestamp := "", max_requests_per_min := 60,
      prompt_config := { answer_prefix := " A: " } }
    (.promptStr "PRE") [{ input := "x", target := "y" }]
    [{ question := "PREQ: x\n A: ", answer := "y" }] (by decide)
    { question := "PREQ: x\n A: ", answer := "y" } (by decide)

/-- C8: the resulting table has exactly the two columns `question` and
`answer` (the `TaskFileRow` shape), one row per input record in the same
order; row `i`'s question is the shared prompt, `question_prefix`, the
record's `input`, `intra_example_sep` and the (stripped or raw) answer
prefix, and its answer is the record's `target` unchanged. -/
theorem task_file_row_shape (tc : TaskConfig) (reg : PromptPool) (rows : List TaskRow)
    (out : List TaskFileRow) (h : make_task_file_from_config tc reg rows = .ok out) :
    out.length = rows.length ∧
    ∃ prompt_str, resolve_prompt_str tc reg = .ok prompt_str ∧
      ∀ i (hi : i < rows.length) (hi2 : i < out.length),
        out[i].question = prompt_str ++ tc.prompt_config.question_prefix ++
            rows[i].input ++ tc.prompt_config.intra_example_sep ++
            (if strContains tc.model_name "code" then tc.prompt_config.answer_prefix
             else pyStrip tc.prompt_config.answer_prefix) ∧
        out[i].answer = rows[i].target := by
  unfold make_task_file_from_config at h
  split at h
  · exact absurd h (by simp)
  · next prompt_str heq =>
    rw [Except.ok.injEq] at h
    subst h
    refine ⟨by simp, prompt_str, heq, ?_⟩
    cases hcode : strContains tc.model_name "code"
    all_goals
      intro i hi hi2
      simp [hcode, List.getElem_map]

theorem task_file_row_shape_witness :
    ([{ question := "PQ: x\nA:", answer := "y" }] : List TaskFileRow).length =
      ([{ input := "x", target := "y" }] : List TaskRow).length ∧
    ∃ prompt_str,
      resolve_prompt_str
          { task_id := "t", tag := "", num_prompt_examples := 1, max_tokens := 100,
            seed := 0, num_questions_per_thread := 1, is_cot_task := true,
            model_name := "davinci", cached_timestamp := "", max_requests_per_min := 60,
            prompt_config := {} }
          (.promptStr "P") = .ok prompt_str ∧
      ∀ i (hi : i < ([{ input := "x", target := "y" }] : List TaskRow).length)
        (hi2 : i < ([{ question := "PQ: x\nA:", answer := "y" }] : List TaskFileRow).length),
        ([{ question := "PQ: x\nA:", answer := "y" }] : List TaskFileRow)[i].question =
            prompt_str ++ "Q: " ++
            ([{ input := "x", target := "y" }] : List TaskRow)[i].input ++ "\n" ++
            (if strContains "davinci" "code" then "A: " else pyStrip "A: ") ∧
        ([{ question := "PQ: x\nA:", answer := "y" }] : List TaskFileRow)[i].answer =
            ([{ input := "x", target := "y" }] : List TaskRow)[i].target :=
  task_file_row_shape _ _ _ _ (by decide)

/-- C9: `PromptConfig.from_args` replaces the two-character backslash-`n`
sequence by a newline in each of the five fields: every field is the raw
argument unescaped, an occurrence of the sequence becomes an actual newline
at the same position, no unconverted occurrence survives in any constructed
field, and a converted newline in the inter-example separator shows up in
the assembled prompt output. -/
theorem from_args_unescapes_newlines (a : PromptArgs) :
    ( PromptConfig.question_prefix (PromptConfig.from_args a) = unescapeNl a.question_prefix ∧
      PromptConfig.answer_prefix (PromptConfig.from_args a) = unescapeNl a.answer_prefix ∧
      PromptConfig.final_answer_prefix (PromptConfig.from_args a) = unescapeNl a.final_answer_prefix ∧
     (PromptConfig.from_args a).intra_example_sep = unescapeNl a.intra_example_sep ∧
     (PromptConfig.from_args a).inter_example_sep = unescapeNl a.inter_example_sep) ∧
    (∀ u v : List Char, '\\' ∉ u → a.intra_example_sep.data = u ++ '\\' :: 'n' :: v →
      ((PromptConfig.from_args a).intra_example_sep).data = u ++ '\n' :: unescapeNlChars v) ∧
    (¬ ['\\', 'n'] <:+: ( PromptConfig.question_prefix (PromptConfig.from_args a)).data ∧
     ¬ ['\\', 'n'] <:+: ( PromptConfig.answer_prefix (PromptConfig.from_args a)).data ∧
     ¬ ['\\', 'n'] <:+: ( PromptConfig.final_answer_prefix (PromptConfig.from_args a)).data ∧
     ¬ ['\\', 'n'] <:+: ((PromptConfig.from_args a).intra_example_sep).data ∧
     ¬ ['\\', 'n'] <:+: ((PromptConfig.from_args a).inter_example_sep).data) ∧
    (∀ (e : Example) (seed : Int) (s : String),
      ['\\', 'n'] <:+: a.inter_example_sep.data →
      make_prompt (.examples [e]) (PromptConfig.from_args a) 1 seed true = .ok s →
      '\n' ∈ s.data) := by
  refine ⟨⟨rfl, rfl, rfl, rfl, rfl⟩, ?_, ?_, ?_⟩
  · intro u v hu hsplit
    show (unescapeNl a.intra_example_sep).data = _
    unfold unescapeNl
    rw [hsplit]
    exact unescape_append_pattern u v hu
  · exact ⟨no_pattern_in_unescape _, no_pattern_in_unescape _,
      no_pattern_in_unescape _, no_pattern_in_unescape _, no_pattern_in_unescape _⟩
  · intro e seed s hinf hs
    rw [make_prompt_single_cot a e seed, Except.ok.injEq] at hs
    subst hs
    have hmem : '\n' ∈ ((PromptConfig.from_args a).inter_example_sep).data :=
      newline_mem_unescape_of_infix _ hinf
    simp only [specPromptOfExamples, specExampleBlock, String.append_empty,
      String.data_append]
    simp only [List.mem_append]
    tauto

/-- C10: `PromptConfig.from_dict` (which calls the dataclass constructor
directly) stores every present key verbatim — no unescaping —, falls back to
the dataclass defaults for absent keys, and therefore differs from
`PromptConfig.from_args` on any field containing the backslash-`n`
sequence. -/
theorem from_dict_stores_verbatim (q a f i e : String) :
    (PromptConfig.from_dict
        { question_prefix := some q, answer_prefix := some a,
          final_answer_prefix := some f, intra_example_sep := some i,
          inter_example_sep := some e } =
      { question_prefix := q, answer_prefix := a, final_answer_prefix := f,
        intra_example_sep := i, inter_example_sep := e }) ∧
    (PromptConfig.from_dict {} = {}) ∧
    (['\\', 'n'] <:+: i.data →
      (PromptConfig.from_dict
          { question_prefix := some q, answer_prefix := some a,
            final_answer_prefix := some f, intra_example_sep := some i,
            inter_example_sep := some e }).intra_example_sep ≠
        (PromptConfig.from_args
          { question_prefix := q, answer_prefix := a, final_answer_prefix := f,
            intra_example_sep := i, inter_example_sep := e }).intra_example_sep) := by
  refine ⟨rfl, rfl, ?_⟩
  intro hinf heq
  have hlt := unescape_length_lt_of_infix i.data hinf
  have hdata : i.data = unescapeNlChars i.data := by
    have hd : (PromptConfig.from_dict
        { question_prefix := some q, answer_prefix := some a,
          final_answer_prefix := some f, intra_example_sep := some i,
          inter_example_sep := some e }).intra_example_sep = i := rfl
    rw [hd] at heq
    have ha : (PromptConfig.from_args
        { question_prefix := q, answer_prefix := a, final_answer_prefix := f,
          intra_example_sep := i, inter_example_sep := e }).intra_example_sep =
        unescapeNl i := rfl
    rw [ha] at heq
    exact congrArg String.data heq
  have hlen := congrArg List.length hdata
  omega

end PromptLib
